import Mathlib

/-!
Verification development for the AI-news aggregation pipeline
(`src/database.py`, `src/sources/base.py`, `src/scheduler.py`,
`src/ai/llm_client.py`, `src/ai/judgment.py`, `src/ai/summarizer.py`,
`src/ai/briefing.py`).

The Python code is shallowly embedded: the SQLite store becomes explicit
lists of records, sessions become state passing, exceptions become
`Except`, and wall-clock times become rationals.  All string manipulation
is done by structural recursion over `List Char` so that concrete
instances reduce in the kernel.
-/

/- ### String helpers (ASCII-level models of the Python str operations) -/

/-- Whitespace characters recognised by Python's `str.strip` / JSON lexing
(space, tab, newline, carriage return). -/
def isWsChar (c : Char) : Bool :=
  c.toNat = 32 || c.toNat = 9 || c.toNat = 10 || c.toNat = 13

/-- Drop leading whitespace. -/
def skipWs : List Char → List Char
  | [] => []
  | c :: cs => if isWsChar c then skipWs cs else c :: cs

/-- Model of Python `str.strip()`. -/
def pyStrip (s : String) : String :=
  String.mk (((s.toList.dropWhile isWsChar).reverse.dropWhile isWsChar).reverse)

/-- Model of Python `str.lower()` (ASCII). -/
def pyLower (s : String) : String :=
  String.mk (s.toList.map Char.toLower)

/-- Bool-valued infix test on character lists. -/
def listIsInfix (needle : List Char) : List Char → Bool
  | [] => needle.isEmpty
  | c :: t => List.isPrefixOf needle (c :: t) || listIsInfix needle t

/-- Python `needle in hay` on strings. -/
def containsSub (hay needle : String) : Bool :=
  listIsInfix needle.toList hay.toList

/-- Python `s.startswith(p)`. -/
def strStarts (s p : String) : Bool :=
  List.isPrefixOf p.toList s.toList

/-- Python `s.endswith(p)`. -/
def strEnds (s p : String) : Bool :=
  List.isPrefixOf p.toList.reverse s.toList.reverse

/-- Split a character list at newline characters (Python `s.split("\n")`). -/
def splitLinesAux : List Char → List Char → List (List Char)
  | [], acc => [acc.reverse]
  | c :: cs, acc =>
    if c.toNat = 10 then acc.reverse :: splitLinesAux cs []
    else splitLinesAux cs (c :: acc)

/-- Python `s.split("\n")`. -/
def splitLines (s : String) : List String :=
  (splitLinesAux s.toList []).map String.mk

/-- Python `"\n".join(lines)`. -/
def joinLines : List String → String
  | [] => ""
  | [l] => l
  | l :: ls => l ++ String.mk [Char.ofNat 10] ++ joinLines ls

/- ### Canonical store (`src/database.py`) -/

/-- Row of the `articles` table (`class Article` in `src/database.py`).
Enrichment fields start out null; `ignored`/`summarized` default to 0. -/
structure Article where
  id : Nat := 0
  source : String := ""
  source_id : Option String := none
  title : String := ""
  ai_title : Option String := none
  ai_title_en : Option String := none
  url : Option String := none
  content : Option String := none
  summary : Option String := none
  summary_en : Option String := none
  importance_score : Option ℚ := none
  fetched_at : Int := 0
  ignored : Nat := 0
  summarized : Nat := 0
  deriving DecidableEq

/-- Row of the `source_status` table (`class SourceStatus`).  A freshly
constructed ORM object has `total_articles = None` until the column
default is applied, which the code guards with `or 0`. -/
structure SourceStatus where
  source_name : String := ""
  last_run : Option Int := none
  last_success : Option Int := none
  status : String := "idle"
  error_message : Option String := none
  articles_fetched : Int := 0
  total_articles : Option Int := none
  deriving DecidableEq

/-- Row of the `briefings` table (`class Briefing`). -/
structure Briefing where
  id : Nat := 0
  date : String := ""
  period : String := ""
  title : String := ""
  title_en : Option String := none
  content_markdown : String := ""
  content_markdown_en : Option String := none
  article_count : Nat := 0
  created_at : Int := 0
  deriving DecidableEq

/-- Python truthiness of an optional string (`if article.source_id`):
`None` and the empty string are both falsy. -/
def pyTruthyStr : Option String → Bool
  | none => false
  | some s => !(s == "")

/-- Embedding of `article_exists`: does a row with this source and
source_id already exist in the store? -/
def article_exists (store : List Article) (source : String) (source_id : String) : Bool :=
  store.any (fun a => a.source == source && a.source_id == some source_id)

/-- Embedding of `save_articles`: iterate over the batch, skip an article
when its `source_id` is truthy and a matching row exists (articles added
earlier in the same batch are visible, as the session autoflushes before
the existence query), otherwise append it.  Returns the new store and the
count of newly inserted rows. -/
def save_articles : List Article → List Article → List Article × Nat
  | store, [] => (store, 0)
  | store, a :: rest =>
    if pyTruthyStr a.source_id && article_exists store a.source (a.source_id.getD "") then
      save_articles store rest
    else
      let r := save_articles (store ++ [a]) rest
      (r.1, r.2 + 1)

/-- Fresh `SourceStatus(source_name=name)` ORM object. -/
def newSourceStatus (name : String) : SourceStatus :=
  { source_name := name }

/-- Field mutations performed by `update_source_status` on the found (or
freshly created) row: `last_run`, `status`, `error_message` and
`articles_fetched` are overwritten unconditionally; on `"success"` the
row additionally gets `last_success = now` and
`total_articles = (total_articles or 0) + articles_fetched`. -/
def applyStatusUpdate (s : SourceStatus) (status : String) (fetched : Int)
    (err : Option String) (now : Int) : SourceStatus :=
  let s1 : SourceStatus :=
    { s with last_run := some now, status := status,
             error_message := err, articles_fetched := fetched }
  if status == "success" then
    { s1 with last_success := some now,
              total_articles := some (s1.total_articles.getD 0 + fetched) }
  else s1

/-- Embedding of `update_source_status`: update the row whose
`source_name` matches (unique by constraint), creating it if absent. -/
def update_source_status (sts : List SourceStatus) (name status : String)
    (fetched : Int) (err : Option String) (now : Int) : List SourceStatus :=
  match sts with
  | [] => [applyStatusUpdate (newSourceStatus name) status fetched err now]
  | s :: rest =>
    if s.source_name == name then
      applyStatusUpdate s status fetched err now :: rest
    else
      s :: update_source_status rest name status fetched err now

/-- Lifetime total for a source as stored (`total_articles or 0`; a
missing row counts as 0). -/
def totalOf (sts : List SourceStatus) (name : String) : Int :=
  match sts.find? (fun s => s.source_name == name) with
  | some s => s.total_articles.getD 0
  | none => 0

/-- One recorded status update, as passed to `update_source_status`. -/
structure StatusUpdate where
  name : String
  status : String
  fetched : Int
  err : Option String
  now : Int

/-- A sequence of `update_source_status` calls applied in order. -/
def run_status_updates (sts : List SourceStatus) : List StatusUpdate → List SourceStatus
  | [] => sts
  | u :: us =>
    run_status_updates (update_source_status sts u.name u.status u.fetched u.err u.now) us

/- ### LLM orchestration layer (`src/ai/llm_client.py`) -/

/-- Retry settings from `llm_client.py` (`LLM_MAX_RETRIES`,
`LLM_RETRY_BASE_DELAY`). -/
def LLM_MAX_RETRIES : Nat := 3

/-- Base retry delay in seconds (doubles each retry). -/
def LLM_RETRY_BASE_DELAY : ℚ := 5

/-- Embedding of `_is_retryable`: lowercase the exception text and look
for rate-limit / transient-server indicators. -/
def is_retryable (excStr : String) : Bool :=
  let s := pyLower excStr
  containsSub s "429" || containsSub s "rate" || containsSub s "limit" ||
  containsSub s "503" || containsSub s "502" || containsSub s "timeout" ||
  containsSub s "overloaded" || containsSub s "capacity"

/-- Outcome of one `litellm.acompletion` attempt: a response text or a
raised exception (identified by its message). -/
inductive LLMAttempt where
  | ok (content : String)
  | err (msg : String)
  deriving DecidableEq

/-- Embedding of the retry loop body of `call_llm`, starting at attempt
number `attempt` (1-based).  The environment supplies one `LLMAttempt`
per attempt actually made.  Returns the list of backoff delays slept (in
order) and the final outcome (`Except.error` models the exception
propagating to the caller).  An empty attempt list cannot be consumed by
the loop (it makes one attempt per iteration); that case is mapped to an
unreachable error. -/
def call_llm_go (attempt : Nat) : List LLMAttempt → List ℚ × Except String String
  | [] => ([], Except.error "")
  | LLMAttempt.ok content :: _ => ([], Except.ok (pyStrip content))
  | LLMAttempt.err msg :: rest =>
    if attempt < LLM_MAX_RETRIES && is_retryable msg then
      let r := call_llm_go (attempt + 1) rest
      (LLM_RETRY_BASE_DELAY * 2 ^ (attempt - 1) :: r.1, r.2)
    else
      ([], Except.error msg)

/-- Embedding of `call_llm`: the loop runs `for attempt in
range(1, LLM_MAX_RETRIES + 1)`. -/
def call_llm (attempts : List LLMAttempt) : List ℚ × Except String String :=
  call_llm_go 1 attempts

/- ### Crawl runner (`src/sources/base.py`) -/

/-- Rate-limiter state of one `BaseCrawler` instance
(`self._last_request_time`, initialised to `0.0`). -/
structure ThrottleState where
  last_request_time : ℚ := 0
  deriving DecidableEq

/-- Start time of the HTTP request issued by `throttled_get`: if less
than `request_delay` elapsed since the previous recorded request time,
sleep the difference first.  `self._last_request_time` is then set to
this start time, immediately before `client.get`. -/
def throttled_get_start (delay : ℚ) (st : ThrottleState) (now : ℚ) : ℚ :=
  if now - st.last_request_time < delay then st.last_request_time + delay else now

/-- Embedding of one `throttled_get` call: `now` is the clock reading on
entry and `dur ≥ 0` the duration of the HTTP request itself.  Returns
(request start, request end, new limiter state). -/
def throttled_get (delay : ℚ) (st : ThrottleState) (now dur : ℚ) : ℚ × ℚ × ThrottleState :=
  let start := throttled_get_start delay st now
  (start, start + dur, { last_request_time := start })

/-- A sequence of `throttled_get` calls on the same adapter instance
(state threads through, also across retries): each input is the pair
(entry clock reading, request duration); each output the pair
(request start, request end). -/
def throttle_run (delay : ℚ) (st : ThrottleState) : List (ℚ × ℚ) → List (ℚ × ℚ)
  | [] => []
  | (now, dur) :: rest =>
    let r := throttled_get delay st now dur
    (r.1, r.2.1) :: throttle_run delay r.2.2 rest

/-- The persistent store: the `articles` and `source_status` tables. -/
structure DB where
  articles : List Article := []
  statuses : List SourceStatus := []
  deriving DecidableEq

/-- Embedding of `BaseCrawler.run`: mark the source `running`, invoke
fetch, persist via `save_articles`, record `success` with the count of
newly inserted rows — or, if fetch (or persistence) raises, record
`error` with the exception's message and return 0; the exception is not
re-raised. -/
def crawler_run (db : DB) (name : String) (fetchRes : Except String (List Article))
    (now : Int) : DB × Nat :=
  let sts1 := update_source_status db.statuses name "running" 0 none now
  match fetchRes with
  | Except.error msg =>
    ({ db with statuses := update_source_status sts1 name "error" 0 (some msg) now }, 0)
  | Except.ok arts =>
    let r := save_articles db.articles arts
    ({ articles := r.1, statuses := update_source_status sts1 name "success" r.2 none now }, r.2)

/-- Embedding of the crawl pass of `run_all_crawlers`: the enabled
crawlers run strictly sequentially, each as one `crawler_run`; a run's
failure is absorbed inside `crawler_run` and the next crawler still
executes. -/
def run_all_crawlers (db : DB) (now : Int) : List (String × Except String (List Article)) → DB
  | [] => db
  | (name, res) :: rest => run_all_crawlers (crawler_run db name res now).1 now rest

/-- Status row currently recorded for a source. -/
def statusOf (sts : List SourceStatus) (name : String) : Option SourceStatus :=
  sts.find? (fun s => s.source_name == name)

/- ### Judgment stage (`src/ai/judgment.py`) -/

/-- Characters named by code point to keep literals unambiguous. -/
def chQuote : Char := Char.ofNat 34

/-- Backslash character. -/
def chBackslash : Char := Char.ofNat 92

/-- Left brace character. -/
def chLBrace : Char := Char.ofNat 123

/-- Right brace character. -/
def chRBrace : Char := Char.ofNat 125

/-- Left bracket character. -/
def chLBrack : Char := Char.ofNat 91

/-- Right bracket character. -/
def chRBrack : Char := Char.ofNat 93

/-- Colon character. -/
def chColon : Char := Char.ofNat 58

/-- Comma character. -/
def chComma : Char := Char.ofNat 44

/-- Minus character. -/
def chMinus : Char := Char.ofNat 45

/-- JSON values in the fragment the judgment stage exchanges: flat
objects whose values are strings (no escapes), booleans, integers, or
null.  Anything outside this fragment (nested containers, floats,
escaped strings) is treated as unparseable by the model. -/
inductive JVal where
  | str (s : String)
  | bool (b : Bool)
  | num (n : Int)
  | null
  deriving DecidableEq

/-- Parse the body of a JSON string after the opening quote; no escape
sequences in the fragment. -/
def parseStrChars : List Char → Option (List Char × List Char)
  | [] => none
  | c :: cs =>
    if c = chQuote then some ([], cs)
    else if c = chBackslash then none
    else
      match parseStrChars cs with
      | some (b, r) => some (c :: b, r)
      | none => none

/-- Consume an exact literal. -/
def dropLit (lit cs : List Char) : Option (List Char) :=
  if List.isPrefixOf lit cs then some (cs.drop lit.length) else none

/-- Decimal digits to a natural number. -/
def digitsToNat (ds : List Char) : Nat :=
  ds.foldl (fun n c => n * 10 + (c.toNat - 48)) 0

/-- Parse a JSON integer (optional minus, digits). -/
def parseNum (cs : List Char) : Option (Int × List Char) :=
  match cs with
  | [] => none
  | c :: rest =>
    if c = chMinus then
      let ds := rest.takeWhile Char.isDigit
      if ds.isEmpty then none
      else some (-(digitsToNat ds : Int), rest.drop ds.length)
    else
      let ds := (c :: rest).takeWhile Char.isDigit
      if ds.isEmpty then none
      else some ((digitsToNat ds : Int), (c :: rest).drop ds.length)

/-- Parse one JSON value of the fragment (leading whitespace allowed). -/
def parseValue (cs : List Char) : Option (JVal × List Char) :=
  match skipWs cs with
  | [] => none
  | c :: rest =>
    if c = chQuote then
      match parseStrChars rest with
      | some (b, r) => some (JVal.str (String.mk b), r)
      | none => none
    else
      match dropLit "true".toList (c :: rest) with
      | some r => some (JVal.bool true, r)
      | none =>
        match dropLit "false".toList (c :: rest) with
        | some r => some (JVal.bool false, r)
        | none =>
          match dropLit "null".toList (c :: rest) with
          | some r => some (JVal.null, r)
          | none =>
            match parseNum (c :: rest) with
            | some (n, r) => some (JVal.num n, r)
            | none => none

/-- Parse the key/value pairs of an object after `{` (at least one pair;
a trailing comma is a syntax error, as in `json.loads`).  Fuel bounds the
recursion by the input length. -/
def parsePairs : Nat → List Char → Option (List (String × JVal) × List Char)
  | 0, _ => none
  | fuel + 1, cs =>
    match skipWs cs with
    | [] => none
    | c :: rest =>
      if c = chQuote then
        match parseStrChars rest with
        | none => none
        | some (key, r1) =>
          match skipWs r1 with
          | [] => none
          | c2 :: r2 =>
            if c2 = chColon then
              match parseValue r2 with
              | none => none
              | some (v, r3) =>
                match skipWs r3 with
                | [] => none
                | c3 :: r4 =>
                  if c3 = chComma then
                    match parsePairs fuel r4 with
                    | some (ms, r5) => some ((String.mk key, v) :: ms, r5)
                    | none => none
                  else if c3 = chRBrace then
                    some ([(String.mk key, v)], r4)
                  else none
            else none
      else none

/-- Model of `json.loads` restricted to the flat-object fragment: the
whole input (up to surrounding whitespace) must be one JSON object.
Inputs that are valid JSON outside the fragment (arrays, scalars,
nested objects, floats) are mapped to `none`; for the judgment stage
every such value also ends in the same `except` fallback, because
`data.get` / pydantic validation raises on them. -/
def json_loads_obj (s : String) : Option (List (String × JVal)) :=
  match skipWs s.toList with
  | [] => none
  | c :: rest =>
    if c = chLBrace then
      match
        (match skipWs rest with
         | c2 :: r2 =>
           if c2 = chRBrace then some (([] : List (String × JVal)), r2)
           else parsePairs (rest.length + 1) rest
         | [] => none) with
      | some (ms, r) => if (skipWs r).isEmpty then some ms else none
      | none => none
    else none

/-- Python dict lookup (duplicate keys: last one wins). -/
def dictGet (ms : List (String × JVal)) (k : String) : Option JVal :=
  (ms.reverse.find? (fun p => p.1 == k)).map (fun p => p.2)

/-- Pydantic lax coercion to `bool` (bools; ints 0/1; the documented
boolean strings).  Other values raise a validation error (`none`). -/
def pydanticBool : JVal → Option Bool
  | JVal.bool b => some b
  | JVal.num n => if n = 0 then some false else if n = 1 then some true else none
  | JVal.str s =>
    let t := pyLower s
    if t == "true" || t == "t" || t == "yes" || t == "y" || t == "on" || t == "1" then
      some true
    else if t == "false" || t == "f" || t == "no" || t == "n" || t == "off" || t == "0" then
      some false
    else none
  | JVal.null => none

/-- Pydantic coercion to `str` (only strings validate). -/
def pydanticStr : JVal → Option String
  | JVal.str s => some s
  | _ => none

/-- Result model of `class JudgmentResult(BaseModel)`. -/
structure JudgmentResult where
  important : Bool
  reason : String
  priority : Option String := none
  deriving DecidableEq

/-- The fail-open default built in the `except` branch of
`judge_article`. -/
def failOpenResult : JudgmentResult :=
  { important := true, reason := "Error in judgment, defaulting to include" }

/-- Build `JudgmentResult(important=data.get("important", False),
reason=data.get("reason", ""), priority=data.get("priority"))`;
`none` models a pydantic validation error. -/
def judgmentFromData (ms : List (String × JVal)) : Option JudgmentResult :=
  match pydanticBool ((dictGet ms "important").getD (JVal.bool false)),
        pydanticStr ((dictGet ms "reason").getD (JVal.str "")),
        dictGet ms "priority" with
  | some b, some r, none => some { important := b, reason := r }
  | some b, some r, some JVal.null => some { important := b, reason := r }
  | some b, some r, some (JVal.str p) => some { important := b, reason := r, priority := some p }
  | _, _, _ => none

/-- Embedding of `judge_article`, as a function of the `call_llm`
outcome: on a successful call, `json.loads` the whole response and build
the result; any exception on the way (call failure, JSON decode error,
validation error) lands in the `except` branch, which returns the
fail-open default. -/
def judge_article (callResult : Except String String) : JudgmentResult :=
  match callResult with
  | Except.error _ => failOpenResult
  | Except.ok response =>
    match json_loads_obj response with
    | none => failOpenResult
    | some ms => (judgmentFromData ms).getD failOpenResult

/-- Modelled from the spec: `process_articles` is imported by
`scheduler.py` and `main.py` but is absent from `src/ai/judgment.py`;
per spec §4.4 the judgment stage applies each decision to its item,
leaving an important item untouched and setting `ignoredFlag` on an
unimportant one. -/
def apply_judgment (batch : List Article) (results : List JudgmentResult) : List Article :=
  List.zipWith (fun a r => if r.important then a else { a with ignored := 1 }) batch results

/-- Does a line start with `{` or `[`? -/
def lineStartsJson (l : String) : Bool :=
  strStarts l (String.mk [chLBrace]) || strStarts l (String.mk [chLBrack])

/-- Does a line end with `}` or `]`? -/
def lineEndsJson (l : String) : Bool :=
  strEnds l (String.mk [chRBrace]) || strEnds l (String.mk [chRBrack])

/-- Modelled from the spec: the span-locating recovery step spec §4.4
requires of the judgment parser — take the lines from the first line
starting with `{`/`[` through the last line ending with `}`/`]` and
parse only that span (whole input if no such lines).  `judge_article`
in the source has no such step; this definition exists to compare the
two. -/
def extractJsonSpan (s : String) : String :=
  let ls := splitLines s
  match ls.findIdx? lineStartsJson with
  | none => s
  | some i =>
    match ls.reverse.findIdx? lineEndsJson with
    | none => s
    | some jr =>
      let j := ls.length - 1 - jr
      if i ≤ j then joinLines ((ls.drop i).take (j - i + 1)) else s

/- ### Summarization stage (`src/ai/summarizer.py`) -/

/-- Outcome of parsing one summarization response, as the tagged result
the design calls for: either the five extracted fields (`data.get` with
defaults `""` and score default 3) or a malformed response
(`json.JSONDecodeError` / `KeyError` in `summarize_article`). -/
inductive SumParse where
  | parsed (title title_en summary summary_en : String) (score : ℚ)
  | malformed
  deriving DecidableEq

/-- The five values `summarize_article` returns. -/
structure SummaryFields where
  ai_title : String
  ai_title_en : String
  summary : String
  summary_en : String
  score : ℚ
  deriving DecidableEq

/-- Embedding of `summarize_article`, as a function of the `call_llm`
outcome and the parse of its response: a parsed response has its score
clamped by `max(1.0, min(5.0, score))`; a call failure or a malformed
response returns `("", "", "", "", 3.0)` from the `except` branches. -/
def summarize_article : Except String SumParse → SummaryFields
  | Except.error _ => ⟨"", "", "", "", 3⟩
  | Except.ok SumParse.malformed => ⟨"", "", "", "", 3⟩
  | Except.ok (SumParse.parsed t te s se sc) => ⟨t, te, s, se, max 1 (min 5 sc)⟩

/-- The selection predicate of `summarize_unsummarized`:
`(summary IS NULL OR summary = '') AND ignored != 1`. -/
def summaryEligible (a : Article) : Bool :=
  (a.summary == none || a.summary == some "") && a.ignored != 1

/-- Insert into a list sorted by `fetched_at` descending. -/
def insertByFetchedDesc (a : Article) : List Article → List Article
  | [] => [a]
  | b :: rest =>
    if b.fetched_at ≤ a.fetched_at then a :: b :: rest
    else b :: insertByFetchedDesc a rest

/-- Sort by `fetched_at` descending (`ORDER BY fetched_at DESC`). -/
def sortByFetchedDesc : List Article → List Article
  | [] => []
  | a :: rest => insertByFetchedDesc a (sortByFetchedDesc rest)

/-- The batch `summarize_unsummarized` selects: eligible rows, newest
first, limited to `batch_size`. -/
def select_batch (store : List Article) (batch_size : Nat) : List Article :=
  (sortByFetchedDesc (store.filter summaryEligible)).take batch_size

/-- The five field assignments `summarize_unsummarized` performs on one
selected article before its individual commit. -/
def apply_summary (a : Article) (f : SummaryFields) : Article :=
  { a with ai_title := some f.ai_title, ai_title_en := some f.ai_title_en,
           summary := some f.summary, summary_en := some f.summary_en,
           importance_score := some f.score }

/-- Embedding of `summarize_unsummarized`: select the batch, then update
each selected row (identified by id) with the fields computed from its
own response; each update is committed individually, and
`summarize_article` absorbs its own failures, so one item's malformed
response never aborts the rest of the batch.  `resp` gives the
call-and-parse outcome for the article with a given id. -/
def summarize_unsummarized (store : List Article) (resp : Nat → Except String SumParse)
    (batch_size : Nat) : List Article :=
  let sel := select_batch store batch_size
  store.map (fun a =>
    if sel.any (fun b => b.id == a.id) then
      apply_summary a (summarize_article (resp a.id))
    else a)

/- ### Briefing generation (`src/ai/briefing.py`) -/

/-- The existence check of `generate_daily_briefing` /
`generate_weekly_briefing`: the row with this `(date, period)`. -/
def findBriefing (bstore : List Briefing) (d p : String) : Option Briefing :=
  bstore.find? (fun b => b.date == d && b.period == p)

/-- Article filter of the briefing queries:
`fetched_at >= since AND ignored != 1 AND ai_title IS NOT NULL`. -/
def briefingEligible (since : Int) (a : Article) : Bool :=
  since ≤ a.fetched_at && a.ignored != 1 && a.ai_title != none

/-- Comparison for `ORDER BY importance_score DESC NULLS LAST`. -/
def impGE (x y : Option ℚ) : Bool :=
  match x, y with
  | some q, some r => r ≤ q
  | some _, none => true
  | none, some _ => false
  | none, none => true

/-- Insert into a list sorted by importance descending, nulls last. -/
def insertByImportanceDesc (a : Article) : List Article → List Article
  | [] => [a]
  | b :: rest =>
    if impGE a.importance_score b.importance_score then a :: b :: rest
    else b :: insertByImportanceDesc a rest

/-- Sort by importance descending, nulls last. -/
def sortByImportanceDesc : List Article → List Article
  | [] => []
  | a :: rest => insertByImportanceDesc a (sortByImportanceDesc rest)

/-- The article window a briefing draws from: time-filtered, judged,
non-ignored rows ranked by importance, capped. -/
def select_briefing_articles (astore : List Article) (since : Int) (cap : Nat) : List Article :=
  (sortByImportanceDesc (astore.filter (briefingEligible since))).take cap

/-- Result of one briefing-generation request: the briefing store after
the call, the returned record, and how many LLM calls were made. -/
structure GenResult where
  store : List Briefing
  result : Option Briefing
  llm_calls : Nat
  deriving DecidableEq

/-- Embedding of `generate_daily_briefing` (times in hours): if a
briefing for `(date_str, "daily")` exists, return it unchanged with no
model call; otherwise select the 24-hour window (cap 20), return `none`
on an empty window, else make the two LLM calls (Chinese and English,
their responses `zh`/`en`) and insert the new row. -/
def generate_daily_briefing (bstore : List Briefing) (astore : List Article)
    (date_str : String) (now : Int) (zh en : String) : GenResult :=
  match findBriefing bstore date_str "daily" with
  | some existing => ⟨bstore, some existing, 0⟩
  | none =>
    let arts := select_briefing_articles astore (now - 24) 20
    if arts.isEmpty then ⟨bstore, none, 0⟩
    else
      let b : Briefing :=
        { date := date_str, period := "daily",
          title := "AI 行业日报 - " ++ date_str,
          title_en := some ("AI Daily Briefing - " ++ date_str),
          content_markdown := zh, content_markdown_en := some en,
          article_count := arts.length, created_at := now }
      ⟨bstore ++ [b], some b, 2⟩

/-- Embedding of `generate_weekly_briefing` (times in hours; window 7
days = 168 hours, cap 30). -/
def generate_weekly_briefing (bstore : List Briefing) (astore : List Article)
    (date_str : String) (now : Int) (zh en : String) : GenResult :=
  match findBriefing bstore date_str "weekly" with
  | some existing => ⟨bstore, some existing, 0⟩
  | none =>
    let arts := select_briefing_articles astore (now - 168) 30
    if arts.isEmpty then ⟨bstore, none, 0⟩
    else
      let b : Briefing :=
        { date := date_str, period := "weekly",
          title := "AI 行业周报 - " ++ date_str,
          title_en := some ("AI Weekly Briefing - " ++ date_str),
          content_markdown := zh, content_markdown_en := some en,
          article_count := arts.length, created_at := now }
      ⟨bstore ++ [b], some b, 2⟩

/- ### Helper lemmas -/

lemma save_articles_skip (store : List Article) (a : Article) (rest : List Article)
    (h : (pyTruthyStr a.source_id && article_exists store a.source (a.source_id.getD "")) = true) :
    save_articles store (a :: rest) = save_articles store rest := by
  simp [save_articles, h]

lemma save_articles_add (store : List Article) (a : Article) (rest : List Article)
    (h : (pyTruthyStr a.source_id && article_exists store a.source (a.source_id.getD "")) = false) :
    save_articles store (a :: rest)
      = ((save_articles (store ++ [a]) rest).1, (save_articles (store ++ [a]) rest).2 + 1) := by
  simp [save_articles, h]

lemma save_articles_extends (batch : List Article) :
    ∀ store : List Article, ∃ tail, (save_articles store batch).1 = store ++ tail := by
  induction batch with
  | nil => intro store; exact ⟨[], by simp [save_articles]⟩
  | cons a rest ih =>
    intro store
    by_cases h : (pyTruthyStr a.source_id && article_exists store a.source (a.source_id.getD "")) = true
    · rw [save_articles_skip store a rest h]; exact ih store
    · rw [save_articles_add store a rest (by simpa using h)]
      obtain ⟨t, ht⟩ := ih (store ++ [a])
      exact ⟨a :: t, by simpa using ht⟩

lemma article_exists_append (store : List Article) (a : Article) (src sid : String) :
    article_exists (store ++ [a]) src sid
      = (article_exists store src sid || (a.source == src && a.source_id == some sid)) := by
  simp [article_exists]

lemma article_exists_self_after_save (store : List Article) (a : Article) (sid : String)
    (hsid : a.source_id = some sid) :
    article_exists ((save_articles store [a]).1) a.source sid = true := by
  by_cases h : (pyTruthyStr a.source_id && article_exists store a.source (a.source_id.getD "")) = true
  · rw [save_articles_skip store a [] h]
    have := (Bool.and_eq_true _ _).mp h
    simpa [hsid] using this.2
  · rw [save_articles_add store a [] (by simpa using h)]
    simp [save_articles, article_exists_append, hsid]

/-- C1 (amended).  `save_articles` dedups on the pair (source, sourceId)
only when the sourceId is non-null AND non-empty (Python truthiness):
such an article is skipped when a matching row exists, and a second
insert attempt after a first one leaves the store unchanged (exactly one
row); an article whose sourceId is null OR the empty string is
unconditionally appended as a new row; and no call of `save_articles`
ever modifies existing rows — the prior store is always a prefix of the
result, so existing enrichment fields are untouched. -/
theorem save_articles_insert_or_skip :
    (∀ (store : List Article) (a : Article) (sid : String),
        a.source_id = some sid → sid ≠ "" →
        article_exists store a.source sid = true →
        save_articles store [a] = (store, 0)) ∧
    (∀ (store : List Article) (a : Article) (sid : String),
        a.source_id = some sid → sid ≠ "" →
        save_articles ((save_articles store [a]).1) [a] = ((save_articles store [a]).1, 0)) ∧
    (∀ (store : List Article) (a : Article),
        a.source_id = none ∨ a.source_id = some "" →
        save_articles store [a] = (store ++ [a], 1)) ∧
    (∀ (store batch : List Article),
        ∃ tail, (save_articles store batch).1 = store ++ tail) := by
  have skip1 : ∀ (store : List Article) (a : Article) (sid : String),
      a.source_id = some sid → sid ≠ "" →
      article_exists store a.source sid = true →
      save_articles store [a] = (store, 0) := by
    intro store a sid h1 h2 h3
    have hc : (pyTruthyStr a.source_id && article_exists store a.source (a.source_id.getD "")) = true := by
      simp [pyTruthyStr, h1, h3, h2]
    rw [save_articles_skip store a [] hc]
    rfl
  refine ⟨skip1, ?_, ?_, fun store batch => save_articles_extends batch store⟩
  · intro store a sid h1 h2
    exact skip1 _ a sid h1 h2 (article_exists_self_after_save store a sid h1)
  · intro store a h
    have hc : (pyTruthyStr a.source_id && article_exists store a.source (a.source_id.getD "")) = false := by
      rcases h with h | h <;> simp [pyTruthyStr, h]
    rw [save_articles_add store a [] hc]
    simp [save_articles]

/-- Article used for the C1 counterexample: its sourceId is the empty
string — non-null, but falsy in Python. -/
def csDupArticle : Article :=
  { source := "hn", source_id := some "", title := "t" }

/-- C1 counterexample.  The claim says every article with a non-null
sourceId whose (source, sourceId) pair already exists is skipped, so
exactly one row exists after both insert attempts.  For the non-null
sourceId `some ""` the pair exists in the store after the first insert,
yet the second insert attempt appends a duplicate: two rows result. -/
theorem save_articles_empty_sid_counterexample :
    csDupArticle.source_id ≠ none ∧
    article_exists ((save_articles [] [csDupArticle]).1) csDupArticle.source "" = true ∧
    (save_articles ((save_articles [] [csDupArticle]).1) [csDupArticle]).1
      = [csDupArticle, csDupArticle] := by
  refine ⟨by decide, by decide, by decide⟩

/-- Article used for the C1 witness: a well-behaved non-empty sourceId. -/
def witDedupArticle : Article :=
  { source := "github", source_id := some "repo-1", title := "t" }

/-- Witness for the amended C1 theorem at a concrete input. -/
theorem save_articles_insert_or_skip_witness :
    save_articles ((save_articles [] [witDedupArticle]).1) [witDedupArticle]
      = ((save_articles [] [witDedupArticle]).1, 0) ∧
    save_articles [] [{ source := "reddit", title := "r" }]
      = ([{ source := "reddit", title := "r" }], 1) :=
  ⟨save_articles_insert_or_skip.2.1 [] witDedupArticle "repo-1" rfl (by decide),
   by simpa using save_articles_insert_or_skip.2.2.1 [] { source := "reddit", title := "r" } (Or.inl rfl)⟩

lemma applyStatusUpdate_source_name (s : SourceStatus) (st : String) (f : Int)
    (e : Option String) (n : Int) :
    (applyStatusUpdate s st f e n).source_name = s.source_name := by
  unfold applyStatusUpdate
  split <;> rfl

lemma applyStatusUpdate_status (s : SourceStatus) (st : String) (f : Int)
    (e : Option String) (n : Int) :
    (applyStatusUpdate s st f e n).status = st := by
  unfold applyStatusUpdate
  split <;> rfl

lemma applyStatusUpdate_error_message (s : SourceStatus) (st : String) (f : Int)
    (e : Option String) (n : Int) :
    (applyStatusUpdate s st f e n).error_message = e := by
  unfold applyStatusUpdate
  split <;> rfl

lemma applyStatusUpdate_total_of_ne (s : SourceStatus) (st : String) (f : Int)
    (e : Option String) (n : Int) (h : st ≠ "success") :
    (applyStatusUpdate s st f e n).total_articles = s.total_articles := by
  unfold applyStatusUpdate
  rw [if_neg (by simpa using h)]

lemma applyStatusUpdate_total_success (s : SourceStatus) (f : Int)
    (e : Option String) (n : Int) :
    (applyStatusUpdate s "success" f e n).total_articles
      = some (s.total_articles.getD 0 + f) := by
  unfold applyStatusUpdate
  rw [if_pos (by simp)]

lemma applyStatusUpdate_total_ge (s : SourceStatus) (st : String) (f : Int)
    (e : Option String) (n : Int) (h : 0 ≤ f) :
    s.total_articles.getD 0 ≤ (applyStatusUpdate s st f e n).total_articles.getD 0 := by
  by_cases hs : st = "success"
  · subst hs
    rw [applyStatusUpdate_total_success]
    simpa using h
  · rw [applyStatusUpdate_total_of_ne s st f e n hs]

lemma totalOf_cons_pos (s : SourceStatus) (sts : List SourceStatus) (q : String)
    (h : (s.source_name == q) = true) :
    totalOf (s :: sts) q = s.total_articles.getD 0 := by
  simp [totalOf, List.find?, h]

lemma totalOf_cons_neg (s : SourceStatus) (sts : List SourceStatus) (q : String)
    (h : (s.source_name == q) = false) :
    totalOf (s :: sts) q = totalOf sts q := by
  simp [totalOf, List.find?, h]

lemma totalOf_update_ge (sts : List SourceStatus) (name st : String) (f : Int)
    (e : Option String) (n : Int) (q : String) (hf : 0 ≤ f) :
    totalOf sts q ≤ totalOf (update_source_status sts name st f e n) q := by
  induction sts with
  | nil =>
    unfold update_source_status
    by_cases h : ((applyStatusUpdate (newSourceStatus name) st f e n).source_name == q) = true
    · rw [totalOf_cons_pos _ _ _ h]
      have : totalOf ([] : List SourceStatus) q = 0 := rfl
      rw [this]
      calc (0 : Int) = (newSourceStatus name).total_articles.getD 0 := rfl
        _ ≤ _ := applyStatusUpdate_total_ge _ st f e n hf
    · rw [totalOf_cons_neg _ _ _ (by simpa using h)]
  | cons s rest ih =>
    unfold update_source_status
    by_cases h : (s.source_name == name) = true
    · rw [if_pos h]
      by_cases hq : (s.source_name == q) = true
      · rw [totalOf_cons_pos s rest q hq,
            totalOf_cons_pos _ rest q (by rw [applyStatusUpdate_source_name]; exact hq)]
        exact applyStatusUpdate_total_ge s st f e n hf
      · rw [totalOf_cons_neg s rest q (by simpa using hq),
            totalOf_cons_neg _ rest q
              (by rw [applyStatusUpdate_source_name]; simpa using hq)]
    · rw [if_neg (by simpa using h)]
      by_cases hq : (s.source_name == q) = true
      · rw [totalOf_cons_pos s rest q hq, totalOf_cons_pos s _ q hq]
      · rw [totalOf_cons_neg s rest q (by simpa using hq),
            totalOf_cons_neg s _ q (by simpa using hq)]
        exact ih

lemma totalOf_update_of_ne (sts : List SourceStatus) (name st : String) (f : Int)
    (e : Option String) (n : Int) (q : String) (hst : st ≠ "success") :
    totalOf (update_source_status sts name st f e n) q = totalOf sts q := by
  induction sts with
  | nil =>
    unfold update_source_status
    by_cases h : ((applyStatusUpdate (newSourceStatus name) st f e n).source_name == q) = true
    · rw [totalOf_cons_pos _ _ _ h, applyStatusUpdate_total_of_ne _ _ _ _ _ hst]
      rfl
    · rw [totalOf_cons_neg _ _ _ (by simpa using h)]
  | cons s rest ih =>
    unfold update_source_status
    by_cases h : (s.source_name == name) = true
    · rw [if_pos h]
      by_cases hq : (s.source_name == q) = true
      · rw [totalOf_cons_pos _ rest q (by rw [applyStatusUpdate_source_name]; exact hq),
            totalOf_cons_pos s rest q hq, applyStatusUpdate_total_of_ne _ _ _ _ _ hst]
      · rw [totalOf_cons_neg _ rest q
              (by rw [applyStatusUpdate_source_name]; simpa using hq),
            totalOf_cons_neg s rest q (by simpa using hq)]
    · rw [if_neg (by simpa using h)]
      by_cases hq : (s.source_name == q) = true
      · rw [totalOf_cons_pos s _ q hq, totalOf_cons_pos s rest q hq]
      · rw [totalOf_cons_neg s _ q (by simpa using hq),
            totalOf_cons_neg s rest q (by simpa using hq)]
        exact ih

/-- C7.  Across any sequence of `update_source_status` calls whose
fetched counts are non-negative, the stored lifetime total
`total_articles` of every source is monotonically non-decreasing; and a
single update whose status is not `"success"` (e.g. `"error"` or
`"running"`) leaves every source's total unchanged — the total is
incremented only by success updates. -/
theorem total_articles_monotone :
    (∀ (sts : List SourceStatus) (us : List StatusUpdate) (q : String),
        (∀ u ∈ us, 0 ≤ u.fetched) →
        totalOf sts q ≤ totalOf (run_status_updates sts us) q) ∧
    (∀ (sts : List SourceStatus) (name st : String) (f : Int) (e : Option String)
        (n : Int) (q : String), st ≠ "success" →
        totalOf (update_source_status sts name st f e n) q = totalOf sts q) := by
  constructor
  · intro sts us
    induction us generalizing sts with
    | nil => intro q _; exact le_refl _
    | cons u rest ih =>
      intro q h
      calc totalOf sts q
          ≤ totalOf (update_source_status sts u.name u.status u.fetched u.err u.now) q :=
            totalOf_update_ge sts u.name u.status u.fetched u.err u.now q
              (h u (List.mem_cons_self u rest))
        _ ≤ _ := ih _ q (fun v hv => h v (List.mem_cons_of_mem u hv))
  · intro sts name st f e n q hst
    exact totalOf_update_of_ne sts name st f e n q hst

/-- Updates used by the C7 witness: a success run, then an error run. -/
def demoUpdates : List StatusUpdate :=
  [⟨"github", "success", 3, none, 0⟩, ⟨"github", "error", 0, some "boom", 1⟩]

/-- Witness for the C7 theorem at a concrete input. -/
theorem total_articles_monotone_witness :
    totalOf [] "github" ≤ totalOf (run_status_updates [] demoUpdates) "github" ∧
    totalOf (update_source_status [] "github" "error" 0 (some "boom") 1) "github"
      = totalOf [] "github" :=
  ⟨total_articles_monotone.1 [] demoUpdates "github" (by decide),
   total_articles_monotone.2 [] "github" "error" 0 (some "boom") 1 "github" (by decide)⟩

/-- C3.  In `call_llm`: a retryable error on attempt `k` with
`k < LLM_MAX_RETRIES` triggers exactly one retry (the loop continues
with attempt `k + 1`) after a backoff delay of
`LLM_RETRY_BASE_DELAY * 2 ^ (k - 1)`; a non-retryable error propagates
immediately with no retry and no delay; at the maximum attempt number
any error — the last one — propagates to the caller; and an error is
retryable exactly when its lowercased message contains one of the
rate-limit / transient-server / overload indicators. -/
theorem call_llm_retry_policy :
    (∀ (k : Nat) (m : String) (rest : List LLMAttempt),
        k < LLM_MAX_RETRIES → is_retryable m = true →
        call_llm_go k (LLMAttempt.err m :: rest)
          = (LLM_RETRY_BASE_DELAY * 2 ^ (k - 1) :: (call_llm_go (k + 1) rest).1,
             (call_llm_go (k + 1) rest).2)) ∧
    (∀ (k : Nat) (m : String) (rest : List LLMAttempt),
        is_retryable m = false →
        call_llm_go k (LLMAttempt.err m :: rest) = ([], Except.error m)) ∧
    (∀ (m : String) (rest : List LLMAttempt),
        call_llm_go LLM_MAX_RETRIES (LLMAttempt.err m :: rest) = ([], Except.error m)) ∧
    (∀ m : String,
        is_retryable m = true ↔
          (containsSub (pyLower m) "429" || containsSub (pyLower m) "rate" ||
           containsSub (pyLower m) "limit" || containsSub (pyLower m) "503" ||
           containsSub (pyLower m) "502" || containsSub (pyLower m) "timeout" ||
           containsSub (pyLower m) "overloaded" || containsSub (pyLower m) "capacity") = true) := by
  refine ⟨?_, ?_, ?_, ?_⟩
  · intro k m rest hk hr
    simp [call_llm_go, hk, hr]
  · intro k m rest hr
    simp [call_llm_go, hr]
  · intro m rest
    simp [call_llm_go]
  · intro m
    constructor <;> intro h <;> simpa [is_retryable] using h

/-- Witness for the C3 theorem at concrete inputs: a 429 error on
attempt 1 retries once after 5 seconds; a non-retryable error at
attempt 1 propagates with no retry; a retryable error at the final
attempt propagates. -/
theorem call_llm_retry_policy_witness :
    call_llm_go 1 [LLMAttempt.err "HTTP 429 too many requests", LLMAttempt.ok "ok"]
      = (LLM_RETRY_BASE_DELAY * 2 ^ (1 - 1)
           :: (call_llm_go 2 [LLMAttempt.ok "ok"]).1,
         (call_llm_go 2 [LLMAttempt.ok "ok"]).2) ∧
    call_llm_go 1 [LLMAttempt.err "invalid api key"] = ([], Except.error "invalid api key") ∧
    call_llm_go LLM_MAX_RETRIES [LLMAttempt.err "HTTP 429 too many requests"]
      = ([], Except.error "HTTP 429 too many requests") :=
  ⟨call_llm_retry_policy.1 1 "HTTP 429 too many requests" [LLMAttempt.ok "ok"]
      (by decide) (by decide),
   call_llm_retry_policy.2.1 1 "invalid api key" [] (by decide),
   call_llm_retry_policy.2.2.1 "HTTP 429 too many requests" []⟩

/-- C2.  `judge_article` fails open: a failed model call or a response
that does not parse as the expected JSON object yields the fail-open
default, whose `important` is `true`; consequently, applying the
judgment decisions of a batch in which every call failed or was
unparseable marks no item ignored — the batch comes back unchanged and
every item keeps its eligibility for summarization. -/
theorem judgment_fails_open :
    (∀ m : String, judge_article (Except.error m) = failOpenResult) ∧
    (∀ r : String, json_loads_obj r = none →
        judge_article (Except.ok r) = failOpenResult) ∧
    failOpenResult.important = true ∧
    (∀ (batch : List Article) (rs : List (Except String String)),
        rs.length = batch.length →
        (∀ c ∈ rs, (∃ m, c = Except.error m) ∨
                   (∃ s, c = Except.ok s ∧ json_loads_obj s = none)) →
        apply_judgment batch (rs.map judge_article) = batch) := by
  have herr : ∀ m : String, judge_article (Except.error m) = failOpenResult :=
    fun m => rfl
  have hbad : ∀ r : String, json_loads_obj r = none →
      judge_article (Except.ok r) = failOpenResult := by
    intro r h
    simp [judge_article, h]
  refine ⟨herr, hbad, rfl, ?_⟩
  intro batch rs
  induction batch generalizing rs with
  | nil => intro _ _; simp [apply_judgment]
  | cons a rest ih =>
    intro hlen hall
    match rs with
    | [] => simp at hlen
    | c :: cs =>
      have hc : (judge_article c).important = true := by
        rcases hall c (List.mem_cons_self c cs) with ⟨m, rfl⟩ | ⟨s, rfl, hs⟩
        · rw [herr m]; rfl
        · rw [hbad s hs]; rfl
      simp only [List.map_cons, apply_judgment, List.zipWith_cons_cons, hc, if_pos]
      have := ih cs (by simpa using hlen) (fun v hv => hall v (List.mem_cons_of_mem c hv))
      simpa [apply_judgment] using this

/-- Witness for the C2 theorem at concrete inputs: a failed call and a
non-JSON response both fail open, and a two-item batch whose calls both
failed comes back with no item ignored. -/
theorem judgment_fails_open_witness :
    judge_article (Except.error "timeout") = failOpenResult ∧
    judge_article (Except.ok "no decision today") = failOpenResult ∧
    apply_judgment [{ source := "hn", title := "a" }, { source := "arxiv", title := "b" }]
        (([Except.error "timeout", Except.ok "no json here"]).map judge_article)
      = [{ source := "hn", title := "a" }, { source := "arxiv", title := "b" }] :=
  ⟨judgment_fails_open.1 "timeout",
   judgment_fails_open.2.1 "no decision today" (by decide),
   judgment_fails_open.2.2.2
     [{ source := "hn", title := "a" }, { source := "arxiv", title := "b" }]
     [Except.error "timeout", Except.ok "no json here"] rfl
     (by
       intro c hc
       simp only [List.mem_cons, List.not_mem_nil, or_false] at hc
       rcases hc with rfl | rfl
       · exact Or.inl ⟨"timeout", rfl⟩
       · exact Or.inr ⟨"no json here", rfl, by decide⟩)⟩

/-- C8 (amended).  `judge_article` parses the entire model response with
`json.loads` and performs no span extraction: any response whose first
non-whitespace character is a formatting-fence backtick fails the parse
and yields the fail-open default (`important = true`) instead of the
decision embedded in the fences. -/
theorem judge_article_no_span_extraction :
    ∀ (s : String) (cs : List Char),
      skipWs s.toList = Char.ofNat 96 :: cs →
      judge_article (Except.ok s) = failOpenResult ∧
      (judge_article (Except.ok s)).important = true := by
  intro s cs h
  have hj : json_loads_obj s = none := by
    unfold json_loads_obj
    rw [h]
    have hc : ¬(Char.ofNat 96 = chLBrace) := by decide
    simp [hc]
  constructor
  · simp [judge_article, hj]
  · simp [judge_article, hj]
    rfl

/-- A judgment response wrapping a valid JSON decision in a Markdown
code fence. -/
def fencedResponse : String :=
  "\x60\x60\x60json\n\x7b\"important\": false, \"reason\": \"hype\"\x7d\n\x60\x60\x60"

/-- C8 counterexample.  On a response wrapping the decision
`important = false` in a code fence, `judge_article` does not recover
the decision: it returns the fail-open default with `important = true`.
The spec's span extraction (first line starting with `{`/`[` to last
line ending with `}`/`]`) would have recovered `important = false`. -/
theorem judge_article_fenced_counterexample :
    judge_article (Except.ok fencedResponse) = failOpenResult ∧
    (judge_article (Except.ok fencedResponse)).important = true ∧
    extractJsonSpan fencedResponse
      = "\x7b\"important\": false, \"reason\": \"hype\"\x7d" ∧
    (json_loads_obj (extractJsonSpan fencedResponse)).map judgmentFromData
      = some (some { important := false, reason := "hype" }) := by
  refine ⟨by decide, by decide, by decide, by decide⟩

/-- Witness for the amended C8 theorem at a concrete input. -/
theorem judge_article_no_span_extraction_witness :
    judge_article (Except.ok fencedResponse) = failOpenResult ∧
    (judge_article (Except.ok fencedResponse)).important = true :=
  judge_article_no_span_extraction fencedResponse
    ("\x60\x60json\n\x7b\"important\": false, \"reason\": \"hype\"\x7d\n\x60\x60\x60".toList)
    (by decide)

lemma mem_insertByFetchedDesc {b a : Article} {l : List Article} :
    b ∈ insertByFetchedDesc a l ↔ b = a ∨ b ∈ l := by
  induction l with
  | nil => simp [insertByFetchedDesc]
  | cons c rest ih =>
    by_cases h : c.fetched_at ≤ a.fetched_at
    · simp [insertByFetchedDesc, h]
    · simp [insertByFetchedDesc, h, ih]
      tauto

lemma mem_sortByFetchedDesc {b : Article} {l : List Article} :
    b ∈ sortByFetchedDesc l ↔ b ∈ l := by
  induction l with
  | nil => simp [sortByFetchedDesc]
  | cons a rest ih => simp [sortByFetchedDesc, mem_insertByFetchedDesc, ih]

lemma select_batch_mem {a : Article} {store : List Article} {n : Nat}
    (h : a ∈ select_batch store n) : a ∈ store ∧ summaryEligible a = true := by
  have h1 : a ∈ sortByFetchedDesc (store.filter summaryEligible) := List.mem_of_mem_take h
  have h2 : a ∈ store.filter summaryEligible := mem_sortByFetchedDesc.mp h1
  exact ⟨List.mem_of_mem_filter h2, List.of_mem_filter h2⟩

lemma apply_summary_id (a : Article) (f : SummaryFields) :
    (apply_summary a f).id = a.id := rfl

/-- C5.  In the summarization stage, a failed call or a malformed
response for one item yields exactly the neutral result — empty
headline/summary fields and score 3.0; a parseable response always has
its stored score clamped into [1, 5]; and every selected item of the
batch is processed and committed with the fields computed from its own
response, independent of what the other items' responses were — one
item's failure cannot abort the rest of the batch. -/
theorem summarizer_per_item_isolation :
    (∀ m : String, summarize_article (Except.error m) = ⟨"", "", "", "", 3⟩) ∧
    summarize_article (Except.ok SumParse.malformed) = ⟨"", "", "", "", 3⟩ ∧
    (∀ (t te s se : String) (sc : ℚ),
        1 ≤ (summarize_article (Except.ok (SumParse.parsed t te s se sc))).score ∧
        (summarize_article (Except.ok (SumParse.parsed t te s se sc))).score ≤ 5) ∧
    (∀ (store : List Article) (resp : Nat → Except String SumParse) (n : Nat) (a : Article),
        a ∈ select_batch store n →
        apply_summary a (summarize_article (resp a.id)) ∈ summarize_unsummarized store resp n) := by
  refine ⟨fun m => rfl, rfl, ?_, ?_⟩
  · intro t te s se sc
    constructor
    · exact le_max_left 1 (min 5 sc)
    · exact max_le (by norm_num) (min_le_left 5 sc)
  · intro store resp n a h
    have ha : a ∈ store := (select_batch_mem h).1
    have hany : (select_batch store n).any (fun b => b.id == a.id) = true :=
      List.any_eq_true.mpr ⟨a, h, by simp⟩
    simp only [summarize_unsummarized]
    exact List.mem_map.mpr ⟨a, ha, by simp [hany]⟩

/-- First article of the C5 witness batch (gets a malformed response). -/
def wArticle1 : Article := { id := 1, source := "hn", title := "a", fetched_at := 2 }

/-- Second article of the C5 witness batch (gets a parsed response). -/
def wArticle2 : Article := { id := 2, source := "gh", title := "b", fetched_at := 1 }

/-- Responses of the C5 witness batch: item 1 malformed, item 2 parsed
with an out-of-range score. -/
def wResp : Nat → Except String SumParse :=
  fun i => if i = 1 then Except.ok SumParse.malformed
           else Except.ok (SumParse.parsed "T" "TE" "S" "SE" 10)

/-- Witness for the C5 theorem at a concrete input: in a two-item batch
whose first response is malformed, both items are still processed. -/
theorem summarizer_per_item_isolation_witness :
    apply_summary wArticle1 (summarize_article (wResp wArticle1.id))
      ∈ summarize_unsummarized [wArticle1, wArticle2] wResp 20 ∧
    apply_summary wArticle2 (summarize_article (wResp wArticle2.id))
      ∈ summarize_unsummarized [wArticle1, wArticle2] wResp 20 :=
  ⟨summarizer_per_item_isolation.2.2.2 [wArticle1, wArticle2] wResp 20 wArticle1 (by decide),
   summarizer_per_item_isolation.2.2.2 [wArticle1, wArticle2] wResp 20 wArticle2 (by decide)⟩

/-- Article used by the C10 counterexample: fresh, unjudged,
unsummarized. -/
def cxRetryArticle : Article := { id := 1, source := "hn", title := "t" }

/-- Every response in the first C10 run is malformed. -/
def respMalformed : Nat → Except String SumParse := fun _ => Except.ok SumParse.malformed

/-- Every response in the second C10 run parses with score 5. -/
def respParsed5 : Nat → Except String SumParse :=
  fun _ => Except.ok (SumParse.parsed "T" "TE" "S" "SE" 5)

/-- Store after the first summarization run of the C10 counterexample. -/
def cxStore1 : List Article := summarize_unsummarized [cxRetryArticle] respMalformed 20

/-- Store after the second summarization run of the C10 counterexample. -/
def cxStore2 : List Article := summarize_unsummarized cxStore1 respParsed5 20

/-- C10 counterexample.  An item processed by the summarization stage
with a malformed response ends with `summary = ""`, so the next run's
selection (`summary IS NULL OR summary = ''`) picks it up again and
overwrites every enrichment field a second time: its score moves from
3.0 to 5.0 and its headline from `""` to `"T"`. -/
theorem summarizer_reprocessed_counterexample :
    cxStore1.map (fun a => a.importance_score) = [some 3] ∧
    cxStore1.map (fun a => a.summary) = [some ""] ∧
    select_batch cxStore1 20 = cxStore1 ∧
    cxStore2.map (fun a => a.importance_score) = [some 5] ∧
    cxStore2.map (fun a => a.ai_title) = [some "T"] := by
  refine ⟨by decide, by decide, by decide, by decide, by decide⟩

/-- C10 (amended).  An item whose stored summary is non-empty is never
selected again by `summarize_unsummarized` and its enrichment fields are
never overwritten by a later run: among rows with its id (unique in the
store) it comes through every later run unchanged.  Only items whose
summary is null or empty — never summarized, or summarized with a
malformed response — can be re-selected and re-mutated. -/
theorem summary_nonempty_never_reselected :
    ∀ (store : List Article) (resp : Nat → Except String SumParse) (n : Nat) (a : Article),
      a ∈ store →
      (∀ b ∈ store, b.id = a.id → b = a) →
      ∀ s : String, a.summary = some s → s ≠ "" →
      a ∉ select_batch store n ∧
      a ∈ summarize_unsummarized store resp n ∧
      (∀ b ∈ summarize_unsummarized store resp n, b.id = a.id → b = a) := by
  intro store resp n a ha huniq s hs hne
  have helig : summaryEligible a = false := by
    simp [summaryEligible, hs, hne]
  have hnotsel : a ∉ select_batch store n := by
    intro hmem
    rw [(select_batch_mem hmem).2] at helig
    cases helig
  have hanyf : (select_batch store n).any (fun b => b.id == a.id) = false := by
    rw [Bool.eq_false_iff]
    intro hany
    obtain ⟨b, hbsel, hbid⟩ := List.any_eq_true.mp hany
    have hbstore : b ∈ store := (select_batch_mem hbsel).1
    have : b = a := huniq b hbstore (by simpa using hbid)
    subst this
    exact hnotsel hbsel
  refine ⟨hnotsel, ?_, ?_⟩
  · simp only [summarize_unsummarized]
    exact List.mem_map.mpr ⟨a, ha, by simp [hanyf]⟩
  · intro b hb hbid
    simp only [summarize_unsummarized] at hb
    obtain ⟨b0, hb0, hfb0⟩ := List.mem_map.mp hb
    have hb0id : b0.id = a.id := by
      by_cases hc : (select_batch store n).any (fun c => c.id == b0.id) = true
      · rw [← hbid, ← hfb0]
        simp [hc, apply_summary_id]
      · rw [← hbid, ← hfb0]
        simp [Bool.eq_false_iff.mpr (fun h => hc h)]
    have hb0a : b0 = a := huniq b0 hb0 hb0id
    subst hb0a
    rw [← hfb0]
    simp [hanyf]

/-- Already-summarized article of the C10 witness (non-empty summary). -/
def wDoneArticle : Article :=
  { id := 7, source := "hn", title := "done", summary := some "A real summary.",
    ai_title := some "旧标题", importance_score := some 4 }

/-- Fresh article of the C10 witness. -/
def wFreshArticle : Article := { id := 8, source := "gh", title := "fresh" }

/-- Witness for the amended C10 theorem at a concrete input. -/
theorem summary_nonempty_never_reselected_witness :
    wDoneArticle ∉ select_batch [wDoneArticle, wFreshArticle] 20 ∧
    wDoneArticle ∈ summarize_unsummarized [wDoneArticle, wFreshArticle] respParsed5 20 ∧
    (∀ b ∈ summarize_unsummarized [wDoneArticle, wFreshArticle] respParsed5 20,
        b.id = wDoneArticle.id → b = wDoneArticle) :=
  summary_nonempty_never_reselected [wDoneArticle, wFreshArticle] respParsed5 20
    wDoneArticle (by decide) (by decide) "A real summary." rfl (by decide)

/-- C4.  Briefing generation is idempotent per (date, period): when a
briefing row for the requested date and period already exists, both
generators return exactly that record, leave the briefing store
unchanged (no new row), and make zero LLM calls. -/
theorem briefing_generation_idempotent :
    (∀ (bstore : List Briefing) (astore : List Article) (d : String) (now : Int)
        (zh en : String) (b : Briefing),
        findBriefing bstore d "daily" = some b →
        generate_daily_briefing bstore astore d now zh en = ⟨bstore, some b, 0⟩) ∧
    (∀ (bstore : List Briefing) (astore : List Article) (d : String) (now : Int)
        (zh en : String) (b : Briefing),
        findBriefing bstore d "weekly" = some b →
        generate_weekly_briefing bstore astore d now zh en = ⟨bstore, some b, 0⟩) := by
  constructor
  · intro bstore astore d now zh en b h
    simp [generate_daily_briefing, h]
  · intro bstore astore d now zh en b h
    simp [generate_weekly_briefing, h]

/-- Existing daily briefing of the C4 witness. -/
def demoDaily : Briefing :=
  { date := "2026-10-12", period := "daily", title := "AI 行业日报 - 2026-10-12",
    content_markdown := "md" }

/-- Existing weekly briefing of the C4 witness. -/
def demoWeekly : Briefing :=
  { date := "2026-10-12", period := "weekly", title := "AI 行业周报 - 2026-10-12",
    content_markdown := "md" }

/-- Witness for the C4 theorem at concrete inputs. -/
theorem briefing_generation_idempotent_witness :
    generate_daily_briefing [demoDaily, demoWeekly] [] "2026-10-12" 0 "zh" "en"
      = ⟨[demoDaily, demoWeekly], some demoDaily, 0⟩ ∧
    generate_weekly_briefing [demoDaily, demoWeekly] [] "2026-10-12" 0 "zh" "en"
      = ⟨[demoDaily, demoWeekly], some demoWeekly, 0⟩ :=
  ⟨briefing_generation_idempotent.1 [demoDaily, demoWeekly] [] "2026-10-12" 0 "zh" "en"
      demoDaily (by decide),
   briefing_generation_idempotent.2 [demoDaily, demoWeekly] [] "2026-10-12" 0 "zh" "en"
      demoWeekly (by decide)⟩

lemma statusOf_cons_pos (s : SourceStatus) (sts : List SourceStatus) (q : String)
    (h : (s.source_name == q) = true) : statusOf (s :: sts) q = some s := by
  simp [statusOf, List.find?, h]

lemma statusOf_cons_neg (s : SourceStatus) (sts : List SourceStatus) (q : String)
    (h : (s.source_name == q) = false) : statusOf (s :: sts) q = statusOf sts q := by
  simp [statusOf, List.find?, h]

lemma statusOf_update_self (sts : List SourceStatus) (name st : String) (f : Int)
    (e : Option String) (n : Int) :
    statusOf (update_source_status sts name st f e n) name
      = some (applyStatusUpdate ((statusOf sts name).getD (newSourceStatus name)) st f e n) := by
  induction sts with
  | nil =>
    unfold update_source_status
    rw [statusOf_cons_pos _ _ _ (by rw [applyStatusUpdate_source_name]; simp [newSourceStatus])]
    rfl
  | cons s rest ih =>
    unfold update_source_status
    by_cases h : (s.source_name == name) = true
    · rw [if_pos h]
      rw [statusOf_cons_pos _ _ _ (by rw [applyStatusUpdate_source_name]; exact h)]
      rw [statusOf_cons_pos s rest name h]
      rfl
    · rw [if_neg (by simpa using h)]
      rw [statusOf_cons_neg _ _ _ (by simpa using h)]
      rw [statusOf_cons_neg s rest name (by simpa using h)]
      exact ih

lemma statusOf_update_self_isSome (sts : List SourceStatus) (name st : String) (f : Int)
    (e : Option String) (n : Int) :
    (statusOf (update_source_status sts name st f e n) name).isSome = true := by
  rw [statusOf_update_self]
  rfl

lemma statusOf_update_mono_isSome (sts : List SourceStatus) (name st : String) (f : Int)
    (e : Option String) (n : Int) (q : String)
    (h : (statusOf sts q).isSome = true) :
    (statusOf (update_source_status sts name st f e n) q).isSome = true := by
  induction sts with
  | nil => simp [statusOf] at h
  | cons s rest ih =>
    unfold update_source_status
    by_cases hm : (s.source_name == name) = true
    · rw [if_pos hm]
      by_cases hq : (s.source_name == q) = true
      · rw [statusOf_cons_pos _ _ _ (by rw [applyStatusUpdate_source_name]; exact hq)]
        rfl
      · rw [statusOf_cons_neg _ _ _ (by rw [applyStatusUpdate_source_name]; simpa using hq)]
        rw [statusOf_cons_neg s rest q (by simpa using hq)] at h
        exact h
    · rw [if_neg (by simpa using hm)]
      by_cases hq : (s.source_name == q) = true
      · rw [statusOf_cons_pos s _ q hq]
        rfl
      · rw [statusOf_cons_neg s _ q (by simpa using hq)]
        rw [statusOf_cons_neg s rest q (by simpa using hq)] at h
        exact ih h

lemma crawler_run_self_isSome (db : DB) (name : String)
    (res : Except String (List Article)) (now : Int) :
    (statusOf (crawler_run db name res now).1.statuses name).isSome = true := by
  unfold crawler_run
  cases res with
  | error msg => exact statusOf_update_self_isSome _ name "error" 0 (some msg) now
  | ok arts => exact statusOf_update_self_isSome _ name "success" _ none now

lemma crawler_run_mono_isSome (db : DB) (name : String)
    (res : Except String (List Article)) (now : Int) (q : String)
    (h : (statusOf db.statuses q).isSome = true) :
    (statusOf (crawler_run db name res now).1.statuses q).isSome = true := by
  unfold crawler_run
  cases res with
  | error msg =>
    exact statusOf_update_mono_isSome _ name "error" 0 (some msg) now q
      (statusOf_update_mono_isSome _ name "running" 0 none now q h)
  | ok arts =>
    exact statusOf_update_mono_isSome _ name "success" _ none now q
      (statusOf_update_mono_isSome _ name "running" 0 none now q h)

lemma run_all_crawlers_mono_isSome (runs : List (String × Except String (List Article))) :
    ∀ (db : DB) (now : Int) (q : String),
      (statusOf db.statuses q).isSome = true →
      (statusOf (run_all_crawlers db now runs).statuses q).isSome = true := by
  induction runs with
  | nil => intro db now q h; exact h
  | cons p rest ih =>
    intro db now q h
    obtain ⟨name, res⟩ := p
    exact ih _ now q (crawler_run_mono_isSome db name res now q h)

/-- C6.  When an adapter's fetch raises, `BaseCrawler.run` returns zero
new items, leaves the article store untouched, and records a status row
for that source with `status = "error"` and the exception's message as
`error_message` (non-empty whenever the message is); the exception does
not propagate — every adapter listed in a sequential crawl pass ends up
with a recorded status row, whatever the outcomes of the adapters before
it. -/
theorem crawler_error_isolation :
    (∀ (db : DB) (name msg : String) (now : Int),
        (crawler_run db name (Except.error msg) now).2 = 0 ∧
        (crawler_run db name (Except.error msg) now).1.articles = db.articles ∧
        ∃ row,
          statusOf (crawler_run db name (Except.error msg) now).1.statuses name = some row ∧
          row.status = "error" ∧ row.error_message = some msg) ∧
    (∀ (db : DB) (now : Int) (runs : List (String × Except String (List Article)))
        (p : String × Except String (List Article)), p ∈ runs →
        (statusOf (run_all_crawlers db now runs).statuses p.1).isSome = true) := by
  constructor
  · intro db name msg now
    refine ⟨rfl, rfl, ?_⟩
    have hrow := statusOf_update_self
      (update_source_status db.statuses name "running" 0 none now) name "error" 0 (some msg) now
    exact ⟨_, hrow, applyStatusUpdate_status _ "error" 0 (some msg) now,
      applyStatusUpdate_error_message _ "error" 0 (some msg) now⟩
  · intro db now runs
    induction runs generalizing db with
    | nil => intro p hp; cases hp
    | cons hd rest ih =>
      intro p hp
      obtain ⟨name, res⟩ := hd
      rcases List.mem_cons.mp hp with rfl | hp'
      · exact run_all_crawlers_mono_isSome rest _ now name
          (crawler_run_self_isSome db name res now)
      · exact ih _ p hp'

/-- Runs of the C6 witness: the first adapter's fetch raises, the second
succeeds. -/
def demoRuns : List (String × Except String (List Article)) :=
  [("github", Except.error "connection reset"),
   ("reddit", Except.ok [{ source := "reddit", title := "r" }])]

/-- Witness for the C6 theorem at concrete inputs: the failing adapter
records an error row, and the adapter after it still executes and
records its own row. -/
theorem crawler_error_isolation_witness :
    ((crawler_run {} "github" (Except.error "connection reset") 0).2 = 0 ∧
      (crawler_run {} "github" (Except.error "connection reset") 0).1.articles = ([] : List Article) ∧
      ∃ row,
        statusOf (crawler_run {} "github" (Except.error "connection reset") 0).1.statuses "github"
          = some row ∧ row.status = "error" ∧ row.error_message = some "connection reset") ∧
    (statusOf (run_all_crawlers {} 0 demoRuns).statuses "reddit").isSome = true :=
  ⟨crawler_error_isolation.1 {} "github" "connection reset" 0,
   crawler_error_isolation.2 {} 0 demoRuns
     ("reddit", Except.ok [{ source := "reddit", title := "r" }]) (by simp [demoRuns])⟩

/-- C9 (amended).  `throttled_get` records `self._last_request_time`
immediately before issuing the request, so the interval it enforces is
measured from the START of the earlier request to the start of the later
one: every request starts at least `request_delay` seconds after the
previous recorded request start, and along any sequence of calls on the
same adapter instance (retries included) consecutive request starts are
at least `request_delay` apart.  The gap from the END of the earlier
request to the next start can be smaller (see the counterexample). -/
theorem throttled_get_start_interval :
    (∀ (delay : ℚ) (st : ThrottleState) (now : ℚ),
        st.last_request_time + delay ≤ throttled_get_start delay st now) ∧
    (∀ (delay : ℚ) (st : ThrottleState) (reqs : List (ℚ × ℚ)),
        List.Chain' (fun x y => x + delay ≤ y)
          (st.last_request_time :: (throttle_run delay st reqs).map Prod.fst)) := by
  have hstep : ∀ (delay : ℚ) (st : ThrottleState) (now : ℚ),
      st.last_request_time + delay ≤ throttled_get_start delay st now := by
    intro delay st now
    unfold throttled_get_start
    split
    · exact le_refl _
    · linarith [not_lt.mp (by assumption : ¬ now - st.last_request_time < delay)]
  refine ⟨hstep, ?_⟩
  intro delay st reqs
  induction reqs generalizing st with
  | nil => simp [throttle_run]
  | cons req rest ih =>
    obtain ⟨now, dur⟩ := req
    have hrun : throttle_run delay st ((now, dur) :: rest)
        = (throttled_get_start delay st now, throttled_get_start delay st now + dur)
            :: throttle_run delay { last_request_time := throttled_get_start delay st now } rest := by
      simp [throttle_run, throttled_get]
    rw [hrun]
    simp only [List.map_cons]
    exact List.Chain'.cons (hstep delay st now)
      (ih { last_request_time := throttled_get_start delay st now })

/-- C9 counterexample.  With the default `request_delay = 1.0`: a first
request starts at t = 5 and takes 0.5 s, ending at t = 5.5; the caller
re-enters `throttled_get` at t = 5.5; only 0.5 s elapsed since the
recorded (start) time 5, so the limiter sleeps 0.5 s and the second
request starts at t = 6.  The gap between the END of the first request
(5.5) and the start of the second (6) is 0.5 s — strictly less than the
adapter's `request_delay` of 1 s, contradicting the end-to-start
reading of the claim. -/
theorem throttled_get_end_gap_counterexample :
    throttle_run 1 { last_request_time := 0 } [(5, 1/2), (11/2, 0)]
      = [(5, 11/2), (6, 6)] ∧
    (6 : ℚ) - 11/2 < 1 := by
  constructor
  · norm_num [throttle_run, throttled_get, throttled_get_start]
  · norm_num
